import Mathlib

set_option synthInstance.maxSize 512

/-!
Shallow embedding of `route_tracker.py` (Routing-Table-Change-Tracker).

The program polls `ip route`, parses each output line into a mapping
`destination ↦ (admin_distance, metric, next_hop)` plus an optional default
gateway, diffs consecutive snapshots by destination key, and appends detected
changes to a log and a CSV file.

Python dictionaries are modelled as association lists with unique keys kept in
insertion order (`dictInsert` overwrites in place, appends fresh keys at the
end), strings as `String` / `List Char`, and the two `re.search` calls as
explicit leftmost-match scanners over the character list.
-/

/-- Whitespace predicate of Python's `\s` and `str.split()` (ASCII range). -/
def isWS (c : Char) : Bool :=
  c = ' ' || c = '\t' || c = '\n' || c = '\r' || c = '\x0b' || c = '\x0c'

/-- Non-whitespace predicate, Python's `\S`. -/
def nws (c : Char) : Bool := !isWS c

/-- Fuel-indexed worker for `splitWS`; fuel bounds the recursion so the
definition is structural and kernel-reducible. -/
def splitGo : Nat → List Char → List (List Char)
  | 0, _ => []
  | _ + 1, [] => []
  | n + 1, c :: cs =>
    if isWS c then splitGo n cs
    else (c :: cs.takeWhile nws) :: splitGo n (cs.dropWhile nws)

/-- Python's `line.split()`: the maximal non-whitespace runs of the line, in
order, with no empty tokens. -/
def splitWS (cs : List Char) : List (List Char) := splitGo cs.length cs

/-- The literal token `via` of the route regex. -/
def viaChars : List Char := ['v', 'i', 'a']

/-- The literal `default` tested by `line.startswith("default")`. -/
def defaultChars : List Char := ['d', 'e', 'f', 'a', 'u', 'l', 't']

/-- The literal part `default via ` (single spaces) of the gateway regex
`default via (\S+)`. -/
def defaultViaChars : List Char :=
  ['d', 'e', 'f', 'a', 'u', 'l', 't', ' ', 'v', 'i', 'a', ' ']

/-- Attempt to match `default via (\S+)` anchored at the head of `cs`:
the literal `default via ` followed by at least one non-whitespace character;
the group is the maximal non-whitespace run (the regex `\S+` is greedy). -/
def gwMatchAt (cs : List Char) : Option (List Char) :=
  if defaultViaChars.isPrefixOf cs then
    let g := (cs.drop defaultViaChars.length).takeWhile nws
    if g.isEmpty then none else some g
  else none

/-- `re.search(r'default via (\S+)', line)`: try the anchored match at every
position, left to right, returning the first group of the leftmost match. -/
def reSearchGw : List Char → Option (List Char)
  | [] => none
  | c :: cs =>
    match gwMatchAt (c :: cs) with
    | some g => some g
    | none => reSearchGw cs

/-- Attempt to match `(\S+)\s+via\s+(\S+)` anchored at the head of `cs`.
Greedy `\S+` from a non-whitespace start must run to the end of the current
token (stopping earlier puts a non-whitespace character where `\s+` is
required), so the first group is the whole token at the match position; then
one or more whitespace characters, the literal `via` followed by whitespace
(hence `via` must be an entire token), and the second group is the maximal
non-whitespace run after that whitespace. -/
def routeMatchAt (cs : List Char) : Option (List Char × List Char) :=
  match cs with
  | [] => none
  | c :: _ =>
    if isWS c then none
    else
      let g1 := cs.takeWhile nws
      let r1 := cs.dropWhile nws
      if (r1.takeWhile isWS).isEmpty then none
      else
        let r2 := r1.dropWhile isWS
        if viaChars.isPrefixOf r2 then
          let r3 := r2.drop 3
          if (r3.takeWhile isWS).isEmpty then none
          else
            let g2 := (r3.dropWhile isWS).takeWhile nws
            if g2.isEmpty then none else some (g1, g2)
        else none

/-- `re.search(r'(\S+)\s+via\s+(\S+)', line)`: try the anchored match at every
position, left to right; the leftmost successful match wins. -/
def reSearchRoute : List Char → Option (List Char × List Char)
  | [] => none
  | c :: cs =>
    match routeMatchAt (c :: cs) with
    | some m => some m
    | none => reSearchRoute cs

/-- Token-level reading of the route regex: scan the token list for the first
`via` token that has both a predecessor and a successor; the result pairs the
token immediately preceding that `via` with the token immediately after it. -/
def viaScan : List (List Char) → Option (List Char × List Char)
  | a :: b :: c :: ts => if b = viaChars then some (a, c) else viaScan (b :: c :: ts)
  | _ => none

/-- Head-anchored form of `viaScan`: succeeds only when the second token is
`via` (used to characterise `routeMatchAt` at a token start). -/
def headVia : List (List Char) → Option (List Char × List Char)
  | a :: b :: c :: _ => if b = viaChars then some (a, c) else none
  | _ => none

/-- A route's value in the mapping: the Python tuple
`(admin_distance, metric, next_hop)`; the first two are always `None` in this
version, the next hop is an address string or the literal `"direct"`. -/
abbrev RouteVal := Option Nat × Option Nat × String

/-- The snapshot's route mapping: a Python dict `destination ↦ RouteVal`,
modelled as an insertion-ordered association list. -/
abbrev RouteMap := List (String × RouteVal)

/-- Python `k in d`: key membership. -/
def keyMem (m : RouteMap) (k : String) : Bool :=
  m.any (fun p => p.1 == k)

/-- Python `d[k]` as a partial read: value of the first (hence, for dicts with
unique keys, the only) entry with key `k`. -/
def keyLookup : RouteMap → String → Option RouteVal
  | [], _ => none
  | p :: rest, k => if p.1 == k then some p.2 else keyLookup rest k

/-- Python `d[k] = v`: overwrite in place if the key is present, else append
a fresh entry at the end (insertion order). -/
def dictInsert (m : RouteMap) (k : String) (v : RouteVal) : RouteMap :=
  if keyMem m k then m.map (fun p => if p.1 == k then (k, v) else p)
  else m ++ [(k, v)]

/-- The part of the `parse_routes` loop body after the `default` gateway
branch: try the route regex; on a match register `Via(next_hop)` under the
matched destination, otherwise fall back to `line.split()` and register the
first token as a direct route unless it is the literal `default`. -/
def parseRest (routes : RouteMap) (gateway : Option String) (cs : List Char) :
    RouteMap × Option String :=
  match reSearchRoute cs with
  | some (d, nh) => (dictInsert routes (String.mk d) (none, none, String.mk nh), gateway)
  | none =>
    match splitWS cs with
    | [] => (routes, gateway)
    | d :: _ =>
      if d = defaultChars then (routes, gateway)
      else (dictInsert routes (String.mk d) (none, none, "direct"), gateway)

/-- One iteration of the `parse_routes` loop: if the line starts with
`default` and the gateway regex matches, set the gateway and `continue`;
otherwise (including a `default`-prefixed line whose gateway regex fails,
which falls through in the Python code) run the route-extraction part. -/
def parseLine (st : RouteMap × Option String) (line : String) : RouteMap × Option String :=
  let cs := line.toList
  if defaultChars.isPrefixOf cs then
    match reSearchGw cs with
    | some g => (st.1, some (String.mk g))
    | none => parseRest st.1 st.2 cs
  else parseRest st.1 st.2 cs

/-- `RouteTracker.parse_routes`: fold the per-line step over the output lines,
starting from an empty mapping and no gateway. -/
def parse_routes (output : List String) : RouteMap × Option String :=
  output.foldl parseLine ([], none)

/-- `RouteTracker.compare_routes`: `added` keeps the entries of `after` whose
key is absent from `before`, `removed` the entries of `before` whose key is
absent from `after` (both dict comprehensions preserve iteration order). -/
def compare_routes (before after : RouteMap) : RouteMap × RouteMap :=
  (after.filter (fun p => !keyMem before p.1),
   before.filter (fun p => !keyMem after p.1))

def before_routes : List String :=
  ["default via 192.168.1.1 dev eth0",
   "192.168.1.0/24 dev eth0 proto kernel scope link src 192.168.1.100",
   "172.16.0.0/16 via 192.168.1.1 dev eth0",
   "10.0.0.0/8 via 192.168.1.1 dev eth0"]

def after_routes : List String :=
  ["default via 192.168.1.1 dev eth0",
   "192.168.1.0/24 dev eth0 proto kernel scope link src 192.168.1.100",
   "172.16.0.0/16 via 192.168.1.1 dev eth0",
   "10.0.0.0/8 via 192.168.1.2 dev eth0",
   "192.168.2.0/24 via 192.168.1.1 dev eth0"]

/-- ASCII apostrophe, used by Python's `str` rendering of the value tuples in
log lines. -/
def pyQuote : String := String.singleton (Char.ofNat 39)

/-- Python `str` of `None` or an integer field. -/
def pyOptStr : Option Nat → String
  | none => "None"
  | some n => toString n

/-- Python `str` of a value tuple `(admin_distance, metric, next_hop)`. -/
def pyStr (v : RouteVal) : String :=
  "(" ++ pyOptStr v.1 ++ ", " ++ pyOptStr v.2.1 ++ ", " ++
    pyQuote ++ v.2.2 ++ pyQuote ++ ")"

/-- `RouteTracker.log_changes`: one `Added routes:` line when `added` is
non-empty, then one `Removed routes:` line when `removed` is non-empty. -/
def log_changes (added removed : RouteMap) : List String :=
  (if added.isEmpty then [] else
    ["Added routes: " ++ String.intercalate ", " (added.map Prod.fst) ++
      " with metrics: " ++ String.intercalate ", " (added.map (fun p => pyStr p.2))]) ++
  (if removed.isEmpty then [] else
    ["Removed routes: " ++ String.intercalate ", " (removed.map Prod.fst) ++
      " with metrics: " ++ String.intercalate ", " (removed.map (fun p => pyStr p.2))])

/-- One CSV record, as the list of its cells. -/
abbrev CsvRow := List String

/-- The header row written by `save_to_csv` when the file is absent or empty. -/
def headerRow : CsvRow :=
  ["Change Type", "Route", "Admin Distance", "Metric", "Next Hop", "Timestamp"]

/-- How `csv.writer` renders the (always-`None` here) numeric fields: `None`
becomes the empty cell. -/
def optCell : Option Nat → String
  | none => ""
  | some n => toString n

/-- The CSV row written for one entry of `added`. -/
def addedRow (ts : String) (p : String × RouteVal) : CsvRow :=
  ["Added", p.1, optCell p.2.1, optCell p.2.2.1, p.2.2.2, ts]

/-- The CSV row written for one entry of `removed`. -/
def removedRow (ts : String) (p : String × RouteVal) : CsvRow :=
  ["Removed", p.1, optCell p.2.1, optCell p.2.2.1, p.2.2.2, ts]

/-- `RouteTracker.save_to_csv`. The wall clock is modelled as a stream of
readings `clock : Nat → String` together with the index `now` of the next
reading; `datetime.now()` is called exactly once per batch, so the function
consumes one reading and returns `now + 1`. `fileNonEmpty` models
`os.path.isfile(...) and os.path.getsize(...) > 0`; the header row is written
first when that test fails, then one row per `added` entry, then one per
`removed` entry, all sharing the single captured timestamp. -/
def save_to_csv (fileNonEmpty : Bool) (added removed : RouteMap)
    (clock : Nat → String) (now : Nat) : List CsvRow × Nat :=
  let timestamp := clock now
  ((if fileNonEmpty then [] else [headerRow]) ++
      added.map (addedRow timestamp) ++ removed.map (removedRow timestamp),
    now + 1)

/-- Append one change batch (an `added`/`removed` pair and the batch's
timestamp) to the CSV file, modelled as the list of rows written so far. -/
def appendBatch (file : List CsvRow) (b : RouteMap × RouteMap × String) : List CsvRow :=
  file ++ (save_to_csv (!file.isEmpty) b.1 b.2.1 (fun _ => b.2.2) 0).1

/-- Append a sequence of change batches to an initially absent/empty file. -/
def runBatches (bs : List (RouteMap × RouteMap × String)) : List CsvRow :=
  bs.foldl appendBatch []

/-- One iteration of `RouteTracker.monitor`'s loop body after the sleep:
parse the polled output, diff the baseline against it, and when either diff
mapping is non-empty log the changes, append the CSV rows, and replace the
baseline (routes and gateway) with the new snapshot; otherwise leave the
baseline, the log, the file and the clock untouched. -/
def monitorCycle (prev : RouteMap × Option String) (output : List String)
    (logAcc : List String) (file : List CsvRow) (clock : Nat → String) (now : Nat) :
    (RouteMap × Option String) × List String × List CsvRow × Nat :=
  let parsed := parse_routes output
  let changes := compare_routes prev.1 parsed.1
  if changes.1.isEmpty && changes.2.isEmpty then (prev, logAcc, file, now)
  else
    let csv := save_to_csv (!file.isEmpty) changes.1 changes.2 clock now
    (parsed, logAcc ++ log_changes changes.1 changes.2, file ++ csv.1, csv.2)

/-- The Python exceptions relevant to `get_current_routes`. -/
inductive PyExn where
  | calledProcessError
  | fileNotFoundError

/-- Outcome of trying to launch the external `ip route` process: either the
process was spawned (with some exit status and captured stdout), or the
executable could not be invoked at all. -/
inductive SpawnOutcome where
  | spawned (returncode : Int) (stdout : String)
  | notFound

/-- `subprocess.run(['ip', 'route'], capture_output=True, text=True)`: without
`check=True` a spawned process never raises, whatever its exit status
(`CalledProcessError` is only raised by `run` when `check=True` is passed);
a launch failure raises `FileNotFoundError`. -/
def subprocess_run (o : SpawnOutcome) : Except PyExn (Int × String) :=
  match o with
  | .spawned rc out => .ok (rc, out)
  | .notFound => .error .fileNotFoundError

/-- Worker for `splitlines` (newline separators only), with the current line
accumulated in reverse. -/
def slGo : List Char → List Char → List String
  | [], [] => []
  | [], acc => [String.mk acc.reverse]
  | c :: cs, acc =>
    if c = '\n' then String.mk acc.reverse :: slGo cs [] else slGo cs (c :: acc)

/-- Python `str.splitlines()` restricted to `\n` separators: no trailing empty
line, and the empty string yields no lines. -/
def splitlines (s : String) : List String := slGo s.toList []

/-- `RouteTracker.get_current_routes`: run the command and return
`result.stdout.splitlines()`; the `except subprocess.CalledProcessError`
handler logs and returns `[]`, and any other exception propagates. The second
component collects the messages passed to `logging.error`. -/
def get_current_routes (o : SpawnOutcome) : Except PyExn (List String) × List String :=
  match subprocess_run o with
  | .ok r => (.ok (splitlines r.2), [])
  | .error .calledProcessError => (.ok [], ["Error running ip route"])
  | .error e => (.error e, [])

/-! ### Lemmas about whitespace splitting -/

theorem length_dropWhile_le (p : Char → Bool) :
    ∀ l : List Char, (l.dropWhile p).length ≤ l.length := by
  intro l
  induction l with
  | nil => simp
  | cons a t ih =>
    rw [List.dropWhile_cons]
    by_cases h : p a = true
    · simp only [h, if_true]
      exact Nat.le_trans ih (Nat.le_succ _)
    · simp [h]

theorem dropWhile_head_false (p : Char → Bool) :
    ∀ (l : List Char) (c : Char) (r : List Char), l.dropWhile p = c :: r → p c = false := by
  intro l
  induction l with
  | nil => intro c r h; simp [List.dropWhile] at h
  | cons a t ih =>
    intro c r h
    rw [List.dropWhile_cons] at h
    by_cases ha : p a = true
    · simp only [ha, if_true] at h
      exact ih c r h
    · simp only [ha, if_false] at h
      injection h with h1 _
      subst h1
      simpa using ha

theorem splitGo_fuel : ∀ (n m : Nat) (cs : List Char),
    cs.length ≤ n → cs.length ≤ m → splitGo n cs = splitGo m cs := by
  intro n
  induction n with
  | zero =>
    intro m cs hn _
    have hnil : cs = [] := List.eq_nil_of_length_eq_zero (Nat.le_zero.mp hn)
    subst hnil
    cases m <;> rfl
  | succ n ih =>
    intro m cs hn hm
    cases cs with
    | nil => cases m <;> rfl
    | cons c rest =>
      cases m with
      | zero => exact absurd hm (by simp)
      | succ m =>
        simp only [splitGo]
        by_cases hc : isWS c = true
        · simp only [hc, if_true]
          exact ih m rest (Nat.le_of_succ_le_succ hn) (Nat.le_of_succ_le_succ hm)
        · have hlen := length_dropWhile_le nws rest
          rw [if_neg hc, if_neg hc,
            ih m (rest.dropWhile nws) (Nat.le_trans hlen (Nat.le_of_succ_le_succ hn))
              (Nat.le_trans hlen (Nat.le_of_succ_le_succ hm))]

theorem splitWS_cons_ws {c : Char} (cs : List Char) (h : isWS c = true) :
    splitWS (c :: cs) = splitWS cs := by
  show splitGo (cs.length + 1) (c :: cs) = splitGo cs.length cs
  simp only [splitGo, h, if_true]

theorem splitWS_cons_nws {c : Char} (cs : List Char) (h : isWS c = false) :
    splitWS (c :: cs) = (c :: cs.takeWhile nws) :: splitWS (cs.dropWhile nws) := by
  show splitGo (cs.length + 1) (c :: cs) = _
  have h' : ¬ isWS c = true := by simp [h]
  simp only [splitGo]
  rw [if_neg h',
    splitGo_fuel cs.length (cs.dropWhile nws).length (cs.dropWhile nws)
      (length_dropWhile_le nws cs) (Nat.le_refl _)]
  rfl

theorem splitWS_dropWhile_ws : ∀ cs : List Char, splitWS (cs.dropWhile isWS) = splitWS cs := by
  intro cs
  induction cs with
  | nil => rfl
  | cons c rest ih =>
    rw [List.dropWhile_cons]
    by_cases h : isWS c = true
    · simp only [h, if_true]
      rw [ih, splitWS_cons_ws rest h]
    · simp [h]

/-! ### The route regex agrees with the token-level scan -/

theorem routeMatchAt_cons (c : Char) (cs : List Char) :
    routeMatchAt (c :: cs) =
      if isWS c then none
      else if (((c :: cs).dropWhile nws).takeWhile isWS).isEmpty then none
      else if viaChars.isPrefixOf (((c :: cs).dropWhile nws).dropWhile isWS) then
        if ((((((c :: cs).dropWhile nws).dropWhile isWS)).drop 3).takeWhile isWS).isEmpty then
          none
        else if (((((((c :: cs).dropWhile nws).dropWhile isWS)).drop 3).dropWhile isWS).takeWhile
            nws).isEmpty then
          none
        else
          some ((c :: cs).takeWhile nws,
            ((((((c :: cs).dropWhile nws).dropWhile isWS)).drop 3).dropWhile isWS).takeWhile nws)
      else none := rfl

theorem afterWS (t r2 : List Char) (hr2 : ∀ e r', r2 = e :: r' → isWS e = false) :
    (if viaChars.isPrefixOf r2 then
      if ((r2.drop 3).takeWhile isWS).isEmpty then none
      else if (((r2.drop 3).dropWhile isWS).takeWhile nws).isEmpty then none
      else some (t, ((r2.drop 3).dropWhile isWS).takeWhile nws)
    else none)
    = headVia (t :: splitWS r2) := by
  by_cases hpre : viaChars.isPrefixOf r2 = true
  · obtain ⟨r3, hr3⟩ := List.isPrefixOf_iff_prefix.mp hpre
    subst hr3
    cases r3 with
    | nil => rfl
    | cons x r3' =>
      have hvia : viaChars ++ x :: r3' = 'v' :: 'i' :: 'a' :: x :: r3' := rfl
      rw [hvia] at hpre ⊢
      rw [if_pos hpre]
      have hdrop3 : ('v' :: 'i' :: 'a' :: x :: r3').drop 3 = x :: r3' := rfl
      rw [hdrop3]
      have hsplit : splitWS ('v' :: 'i' :: 'a' :: x :: r3')
          = ('v' :: ('i' :: 'a' :: x :: r3').takeWhile nws) ::
              splitWS (('i' :: 'a' :: x :: r3').dropWhile nws) :=
        splitWS_cons_nws _ (by decide)
      by_cases hx : isWS x = true
      · have hxnws : nws x = false := by simp [nws, hx]
        have htok : ('i' :: 'a' :: x :: r3').takeWhile nws = ['i', 'a'] := by
          rw [List.takeWhile_cons, if_pos (by decide), List.takeWhile_cons, if_pos (by decide),
            List.takeWhile_cons, if_neg (by simp [hxnws])]
        have hrem : ('i' :: 'a' :: x :: r3').dropWhile nws = x :: r3' := by
          rw [List.dropWhile_cons, if_pos (by decide), List.dropWhile_cons, if_pos (by decide),
            List.dropWhile_cons, if_neg (by simp [hxnws])]
        rw [hsplit, htok, hrem]
        rw [if_neg (by rw [List.takeWhile_cons, if_pos hx]; simp)]
        rw [← splitWS_dropWhile_ws (x :: r3')]
        cases hr4 : (x :: r3').dropWhile isWS with
        | nil => rfl
        | cons y r4' =>
          have hy : isWS y = false := dropWhile_head_false isWS _ y r4' hr4
          have hynws : nws y = true := by simp [nws, hy]
          have hg2 : (y :: r4').takeWhile nws = y :: r4'.takeWhile nws := by
            rw [List.takeWhile_cons, if_pos hynws]
          rw [hg2, if_neg (by simp)]
          rw [splitWS_cons_nws r4' hy]
          simp [headVia, viaChars]
      · have hx' : isWS x = false := by simpa using hx
        have hxnws : nws x = true := by simp [nws, hx']
        rw [if_pos (by rw [List.takeWhile_cons, if_neg (by simp [hx'])]; rfl)]
        have htok : ('i' :: 'a' :: x :: r3').takeWhile nws
            = 'i' :: 'a' :: x :: r3'.takeWhile nws := by
          rw [List.takeWhile_cons, if_pos (by decide), List.takeWhile_cons, if_pos (by decide),
            List.takeWhile_cons, if_pos hxnws]
        have hrem : ('i' :: 'a' :: x :: r3').dropWhile nws = r3'.dropWhile nws := by
          rw [List.dropWhile_cons, if_pos (by decide), List.dropWhile_cons, if_pos (by decide),
            List.dropWhile_cons, if_pos hxnws]
        rw [hsplit, htok, hrem]
        have hne : ¬ ('v' :: 'i' :: 'a' :: x :: r3'.takeWhile nws) = viaChars := by
          intro heq
          have := congrArg List.length heq
          simp [viaChars] at this
        cases hX : splitWS (r3'.dropWhile nws) with
        | nil => rfl
        | cons z zs => simp [headVia, hne]
  · rw [if_neg hpre]
    cases hc : r2 with
    | nil => rfl
    | cons e r2' =>
      have he : isWS e = false := hr2 e r2' hc
      have henws : nws e = true := by simp [nws, he]
      subst hc
      rw [splitWS_cons_nws r2' he]
      cases hX : splitWS (r2'.dropWhile nws) with
      | nil => rfl
      | cons z zs =>
        have hne : ¬ (e :: r2'.takeWhile nws) = viaChars := by
          intro heq
          apply hpre
          apply List.isPrefixOf_iff_prefix.mpr
          rw [← heq]
          have htw : (e :: r2').takeWhile nws = e :: r2'.takeWhile nws := by
            rw [List.takeWhile_cons, if_pos henws]
          rw [← htw]
          exact List.takeWhile_prefix nws
        simp [headVia, hne]

theorem afterToken (t r1 : List Char) (hr1 : ∀ d r', r1 = d :: r' → isWS d = true) :
    (if (r1.takeWhile isWS).isEmpty then none
     else if viaChars.isPrefixOf (r1.dropWhile isWS) then
       if (((r1.dropWhile isWS).drop 3).takeWhile isWS).isEmpty then none
       else if ((((r1.dropWhile isWS).drop 3).dropWhile isWS).takeWhile nws).isEmpty then none
       else some (t, (((r1.dropWhile isWS).drop 3).dropWhile isWS).takeWhile nws)
     else none)
    = headVia (t :: splitWS r1) := by
  cases r1 with
  | nil => rfl
  | cons w r1' =>
    have hw : isWS w = true := hr1 w r1' rfl
    rw [if_neg (by rw [List.takeWhile_cons, if_pos hw]; simp)]
    rw [← splitWS_dropWhile_ws (w :: r1')]
    exact afterWS t ((w :: r1').dropWhile isWS)
      (fun e r' he => dropWhile_head_false isWS _ e r' he)

theorem routeMatchAt_eq_headVia (c : Char) (cs : List Char) (h : isWS c = false) :
    routeMatchAt (c :: cs) = headVia (splitWS (c :: cs)) := by
  have hc : nws c = true := by simp [nws, h]
  rw [routeMatchAt_cons, if_neg (by simp [h]), splitWS_cons_nws cs h]
  rw [show (c :: cs).dropWhile nws = cs.dropWhile nws from by
    rw [List.dropWhile_cons, if_pos hc]]
  rw [show (c :: cs).takeWhile nws = c :: cs.takeWhile nws from by
    rw [List.takeWhile_cons, if_pos hc]]
  exact afterToken (c :: cs.takeWhile nws) (cs.dropWhile nws)
    (fun d r' hd => by
      have := dropWhile_head_false nws cs d r' hd
      simpa [nws] using this)

theorem viaScan_of_headVia_some (M : List (List Char)) (pr : List Char × List Char)
    (h : headVia M = some pr) : viaScan M = some pr := by
  match M with
  | [] => exact absurd h (by simp [headVia])
  | [a] => exact absurd h (by simp [headVia])
  | [a, b] => exact absurd h (by simp [headVia])
  | a :: b :: c :: ts =>
    by_cases hb : b = viaChars
    · simpa [viaScan, hb] using (by simpa [headVia, hb] using h)
    · exact absurd h (by simp [headVia, hb])

theorem headVia_none_swap (a b : List Char) (L : List (List Char))
    (h : headVia (a :: L) = none) : headVia (b :: L) = none := by
  match L with
  | [] => rfl
  | [x] => rfl
  | x :: y :: ts =>
    by_cases hx : x = viaChars
    · exact absurd h (by simp [headVia, hx])
    · simp [headVia, hx]

theorem viaScan_cons_of_headVia_none (a : List Char) (L : List (List Char))
    (h : headVia (a :: L) = none) : viaScan (a :: L) = viaScan L := by
  match L with
  | [] => rfl
  | [x] => rfl
  | x :: y :: ts =>
    by_cases hx : x = viaChars
    · exact absurd h (by simp [headVia, hx])
    · simp [viaScan, hx]

theorem reSearchRoute_eq_viaScan : ∀ cs : List Char, reSearchRoute cs = viaScan (splitWS cs) := by
  intro cs
  induction cs with
  | nil => rfl
  | cons c rest ih =>
    by_cases hws : isWS c = true
    · have h1 : routeMatchAt (c :: rest) = none := by
        rw [routeMatchAt_cons, if_pos hws]
      show (match routeMatchAt (c :: rest) with
        | some m => some m
        | none => reSearchRoute rest) = _
      rw [h1, ih, splitWS_cons_ws rest hws]
    · have hws' : isWS c = false := by simpa using hws
      have hB := routeMatchAt_eq_headVia c rest hws'
      show (match routeMatchAt (c :: rest) with
        | some m => some m
        | none => reSearchRoute rest) = _
      cases hm : routeMatchAt (c :: rest) with
      | some pr =>
        rw [hm] at hB
        exact (viaScan_of_headVia_some _ pr hB.symm).symm
      | none =>
        rw [hm] at hB
        rw [ih]
        rw [splitWS_cons_nws rest hws'] at hB ⊢
        rw [viaScan_cons_of_headVia_none _ _ hB.symm]
        cases rest with
        | nil => rfl
        | cons d tl =>
          by_cases hd : isWS d = true
          · rw [show (d :: tl).dropWhile nws = d :: tl from by
              rw [List.dropWhile_cons, if_neg (by simp [nws, hd])]]
          · have hd' : isWS d = false := by simpa using hd
            have hdrop : (d :: tl).dropWhile nws = tl.dropWhile nws := by
              rw [List.dropWhile_cons, if_pos (by simp [nws, hd'])]
            rw [hdrop] at hB
            rw [hdrop, splitWS_cons_nws tl hd']
            have hB' : headVia ((d :: tl.takeWhile nws) :: splitWS (tl.dropWhile nws)) = none :=
              headVia_none_swap _ _ _ hB.symm
            rw [viaScan_cons_of_headVia_none _ _ hB']

/-! ### Lemmas about the key-only diff -/

theorem keyMem_nil (d : String) : keyMem [] d = false := rfl

theorem keyMem_cons (p : String × RouteVal) (M : RouteMap) (d : String) :
    keyMem (p :: M) d = ((p.1 == d) || keyMem M d) := rfl

theorem keyMem_filter (g : String → Bool) (L : RouteMap) (d : String) :
    keyMem (L.filter fun p => g p.1) d = (keyMem L d && g d) := by
  induction L with
  | nil => simp [keyMem]
  | cons p L ih =>
    rw [List.filter_cons]
    by_cases hg : g p.1 = true
    · rw [if_pos hg, keyMem_cons, keyMem_cons, ih]
      by_cases hpd : p.1 = d
      · subst hpd
        rw [hg]
        simp
      · have hbe : (p.1 == d) = false := by simp [hpd]
        rw [hbe]
        simp
    · have hg' : g p.1 = false := by simpa using hg
      rw [if_neg hg, ih, keyMem_cons]
      by_cases hpd : p.1 = d
      · subst hpd
        rw [hg']
        simp
      · have hbe : (p.1 == d) = false := by simp [hpd]
        rw [hbe]
        simp

theorem keyLookup_cons (p : String × RouteVal) (M : RouteMap) (d : String) :
    keyLookup (p :: M) d = if p.1 == d then some p.2 else keyLookup M d := rfl

theorem keyLookup_filter (g : String → Bool) (L : RouteMap) (d : String) :
    keyLookup (L.filter fun p => g p.1) d = if g d = true then keyLookup L d else none := by
  induction L with
  | nil => by_cases hg : g d = true <;> simp [keyLookup, hg]
  | cons p L ih =>
    rw [List.filter_cons]
    by_cases hg : g p.1 = true
    · rw [if_pos hg, keyLookup_cons, keyLookup_cons]
      by_cases hpd : p.1 = d
      · subst hpd
        simp [hg]
      · have hbe : (p.1 == d) = false := by simp [hpd]
        rw [hbe, ih]
        by_cases hgd : g d = true <;> simp [hgd]
    · have hg' : g p.1 = false := by simpa using hg
      rw [if_neg hg, ih, keyLookup_cons]
      by_cases hpd : p.1 = d
      · subst hpd
        rw [hg']
        simp
      · have hbe : (p.1 == d) = false := by simp [hpd]
        simp [hbe]

theorem keyMem_of_mem (A : RouteMap) (p : String × RouteVal) (hp : p ∈ A) :
    keyMem A p.1 = true :=
  List.any_eq_true.mpr ⟨p, hp, by simp⟩

theorem compare_routes_self (A : RouteMap) : compare_routes A A = ([], []) := by
  unfold compare_routes
  have h : A.filter (fun p => !keyMem A p.1) = [] := by
    apply List.filter_eq_nil_iff.mpr
    intro p hp
    simp [keyMem_of_mem A p hp]
  rw [h]

theorem keyMem_added (A B : RouteMap) (d : String) :
    keyMem (compare_routes A B).1 d = (keyMem B d && !keyMem A d) :=
  keyMem_filter (fun s => !keyMem A s) B d

theorem keyMem_removed (A B : RouteMap) (d : String) :
    keyMem (compare_routes A B).2 d = (keyMem A d && !keyMem B d) :=
  keyMem_filter (fun s => !keyMem B s) A d

theorem keyLookup_added (A B : RouteMap) (d : String) :
    keyLookup (compare_routes A B).1 d
      = if (!keyMem A d) = true then keyLookup B d else none :=
  keyLookup_filter (fun s => !keyMem A s) B d

theorem keyLookup_removed (A B : RouteMap) (d : String) :
    keyLookup (compare_routes A B).2 d
      = if (!keyMem B d) = true then keyLookup A d else none :=
  keyLookup_filter (fun s => !keyMem B s) A d

/-! ### Claims about the differ -/

/-- C1: for every pair of snapshots and every destination `d`, `d` is a key of
`added` iff it is a key of `after` and not of `before`, and then its value in
`added` is `after`'s value; symmetrically `d` is a key of `removed` iff it is
a key of `before` and not of `after`, with the value taken from `before`. -/
theorem claim_C1 (A B : RouteMap) (d : String) :
    (keyMem (compare_routes A B).1 d = true ↔ keyMem B d = true ∧ keyMem A d = false) ∧
    (keyMem (compare_routes A B).1 d = true →
      keyLookup (compare_routes A B).1 d = keyLookup B d) ∧
    (keyMem (compare_routes A B).2 d = true ↔ keyMem A d = true ∧ keyMem B d = false) ∧
    (keyMem (compare_routes A B).2 d = true →
      keyLookup (compare_routes A B).2 d = keyLookup A d) := by
  refine ⟨?_, ?_, ?_, ?_⟩
  · rw [keyMem_added]
    simp
  · intro hmem
    rw [keyMem_added] at hmem
    cases hka : keyMem A d
    · simp [keyLookup_added, hka]
    · rw [hka] at hmem
      simp at hmem
  · rw [keyMem_removed]
    simp
  · intro hmem
    rw [keyMem_removed] at hmem
    cases hkb : keyMem B d
    · simp [keyLookup_removed, hkb]
    · rw [hkb] at hmem
      simp at hmem

/-- Witness for C1 at a concrete pair of snapshots and destination. -/
theorem claim_C1_witness :
    (keyMem (compare_routes [] [("192.168.2.0/24", (none, none, "192.168.1.1"))]).1
        "192.168.2.0/24" = true ↔
      keyMem [("192.168.2.0/24", (none, none, "192.168.1.1"))] "192.168.2.0/24" = true ∧
      keyMem [] "192.168.2.0/24" = false) ∧
    (keyMem (compare_routes [] [("192.168.2.0/24", (none, none, "192.168.1.1"))]).1
        "192.168.2.0/24" = true →
      keyLookup (compare_routes [] [("192.168.2.0/24", (none, none, "192.168.1.1"))]).1
          "192.168.2.0/24"
        = keyLookup [("192.168.2.0/24", (none, none, "192.168.1.1"))] "192.168.2.0/24") ∧
    (keyMem (compare_routes [] [("192.168.2.0/24", (none, none, "192.168.1.1"))]).2
        "192.168.2.0/24" = true ↔
      keyMem [] "192.168.2.0/24" = true ∧
      keyMem [("192.168.2.0/24", (none, none, "192.168.1.1"))] "192.168.2.0/24" = false) ∧
    (keyMem (compare_routes [] [("192.168.2.0/24", (none, none, "192.168.1.1"))]).2
        "192.168.2.0/24" = true →
      keyLookup (compare_routes [] [("192.168.2.0/24", (none, none, "192.168.1.1"))]).2
          "192.168.2.0/24"
        = keyLookup [] "192.168.2.0/24") :=
  claim_C1 [] [("192.168.2.0/24", (none, none, "192.168.1.1"))] "192.168.2.0/24"

/-- C2: a destination present in both snapshots is reported in neither `added`
nor `removed`, whatever the two stored next-hop values are. -/
theorem claim_C2 (A B : RouteMap) (d : String)
    (hA : keyMem A d = true) (hB : keyMem B d = true) :
    keyMem (compare_routes A B).1 d = false ∧ keyMem (compare_routes A B).2 d = false := by
  rw [keyMem_added, keyMem_removed, hA, hB]
  simp

/-- Witness for C2: the same destination with two different next hops is
invisible to the differ. -/
theorem claim_C2_witness :
    keyMem [("10.0.0.0/8", (none, none, "192.168.1.1"))] "10.0.0.0/8" = true ∧
    keyMem [("10.0.0.0/8", (none, none, "192.168.1.2"))] "10.0.0.0/8" = true ∧
    (keyMem (compare_routes [("10.0.0.0/8", (none, none, "192.168.1.1"))]
        [("10.0.0.0/8", (none, none, "192.168.1.2"))]).1 "10.0.0.0/8" = false ∧
      keyMem (compare_routes [("10.0.0.0/8", (none, none, "192.168.1.1"))]
        [("10.0.0.0/8", (none, none, "192.168.1.2"))]).2 "10.0.0.0/8" = false) :=
  ⟨by decide, by decide, claim_C2 _ _ _ (by decide) (by decide)⟩

/-- C10: diffing a snapshot against itself yields empty `added` and `removed`
mappings, so an unchanged poll can never report a change. -/
theorem claim_C10 (A : RouteMap) : compare_routes A A = ([], []) :=
  compare_routes_self A

/-! ### Claims about the parser -/

/-- C3 counterexample: on the claim's own example line
`10.0.0.0/8 dev eth0 via 192.168.1.1` the parser does NOT key the route by the
first whitespace-delimited token `10.0.0.0/8`; `re.search` keys it by the
token immediately preceding `via`, here `eth0`. -/
theorem claim_C3_counterexample :
    (parse_routes ["10.0.0.0/8 dev eth0 via 192.168.1.1"]).1
        = [("eth0", (none, none, "192.168.1.1"))] ∧
      keyMem (parse_routes ["10.0.0.0/8 dev eth0 via 192.168.1.1"]).1 "10.0.0.0/8" = false := by
  decide

/-- C3 (amended): for every input line that does not begin with `default` and
whose token list contains a `via` token with both a predecessor and a
successor, the parser registers a route whose destination key is the token
immediately preceding the FIRST such `via` (not necessarily the first token of
the line) and whose next hop is the token immediately after that `via`; the
gateway is unchanged. -/
theorem claim_C3_amended (line : String) (routes : RouteMap) (gateway : Option String)
    (d a : List Char)
    (h1 : defaultChars.isPrefixOf line.toList = false)
    (h2 : viaScan (splitWS line.toList) = some (d, a)) :
    parseLine (routes, gateway) line
      = (dictInsert routes (String.mk d) (none, none, String.mk a), gateway) := by
  have hstep : parseLine (routes, gateway) line = parseRest routes gateway line.toList := by
    unfold parseLine
    rw [if_neg (by rw [h1]; simp)]
  rw [hstep]
  unfold parseRest
  rw [reSearchRoute_eq_viaScan, h2]

/-- Witness for the amended C3 on the claim's example line: the registered
destination is `eth0`, the token before `via`. -/
theorem claim_C3_witness :
    defaultChars.isPrefixOf "10.0.0.0/8 dev eth0 via 192.168.1.1".toList = false ∧
    viaScan (splitWS "10.0.0.0/8 dev eth0 via 192.168.1.1".toList)
      = some ("eth0".toList, "192.168.1.1".toList) ∧
    parseLine ([], none) "10.0.0.0/8 dev eth0 via 192.168.1.1"
      = (dictInsert [] (String.mk "eth0".toList) (none, none, String.mk "192.168.1.1".toList),
          none) :=
  ⟨by decide, by decide, claim_C3_amended _ [] none _ _ (by decide) (by decide)⟩

/-- C4 counterexample: the claim's own example line
`default dev eth0 via 192.168.1.1` (which lacks the `default via <addr>`
shape) is NOT silently ignored: it falls through to route extraction and
registers the route `eth0 ↦ (None, None, 192.168.1.1)` (no gateway is set). -/
theorem claim_C4_counterexample :
    (parse_routes ["default dev eth0 via 192.168.1.1"]).1
        = [("eth0", (none, none, "192.168.1.1"))] ∧
      (parse_routes ["default dev eth0 via 192.168.1.1"]).2 = none := by
  decide

/-- C4 (amended): for a line whose first token is exactly `default`: if the
regex `default via (\S+)` matches, its group becomes the snapshot's gateway
and no route is registered from the line; if it does not match, the line falls
through to ordinary route extraction with the gateway left unchanged — a route
keyed by the token before the first inner `via` is registered when the route
regex matches (e.g. `default dev eth0 via 192.168.1.1` registers `eth0`), and
only otherwise is the line ignored. -/
theorem claim_C4_amended (line : String) (routes : RouteMap) (gateway : Option String)
    (h1 : defaultChars.isPrefixOf line.toList = true)
    (h2 : (splitWS line.toList).head? = some defaultChars) :
    parseLine (routes, gateway) line
      = match reSearchGw line.toList with
        | some g => (routes, some (String.mk g))
        | none =>
          match viaScan (splitWS line.toList) with
          | some (d, a) => (dictInsert routes (String.mk d) (none, none, String.mk a), gateway)
          | none => (routes, gateway) := by
  unfold parseLine
  rw [if_pos h1]
  cases hgw : reSearchGw line.toList with
  | some g => rfl
  | none =>
    unfold parseRest
    rw [reSearchRoute_eq_viaScan]
    cases hvs : viaScan (splitWS line.toList) with
    | some pr => obtain ⟨d, a⟩ := pr; rfl
    | none =>
      cases hsp : splitWS line.toList with
      | nil => rfl
      | cons t ts =>
        rw [hsp] at h2
        have ht : t = defaultChars := by simpa using h2
        subst ht
        rfl

/-- Witness for the amended C4 on the claim's example line. -/
theorem claim_C4_witness :
    defaultChars.isPrefixOf "default dev eth0 via 192.168.1.1".toList = true ∧
    (splitWS "default dev eth0 via 192.168.1.1".toList).head? = some defaultChars ∧
    parseLine ([], none) "default dev eth0 via 192.168.1.1"
      = (dictInsert [] (String.mk "eth0".toList) (none, none, String.mk "192.168.1.1".toList),
          none) :=
  ⟨by decide, by decide, by
    rw [claim_C4_amended "default dev eth0 via 192.168.1.1" [] none (by decide) (by decide)]
    decide⟩

/-- C5: parsing the two embedded test-mode route tables and diffing the
resulting snapshots yields exactly
`added = {192.168.2.0/24 ↦ (None, None, 192.168.1.1)}` and `removed = {}`;
the next-hop change of `10.0.0.0/8` is invisible. -/
theorem claim_C5 :
    compare_routes (parse_routes before_routes).1 (parse_routes after_routes).1
      = ([("192.168.2.0/24", (none, none, "192.168.1.1"))], []) := by
  decide

/-! ### Claims about the recorder and the monitor loop -/

theorem headerRow_ne_addedRow (ts : String) (p : String × RouteVal) :
    addedRow ts p ≠ headerRow := by
  intro h
  rw [addedRow, headerRow] at h
  injection h with h1 _
  exact absurd h1 (by decide)

theorem headerRow_ne_removedRow (ts : String) (p : String × RouteVal) :
    removedRow ts p ≠ headerRow := by
  intro h
  rw [removedRow, headerRow] at h
  injection h with h1 _
  exact absurd h1 (by decide)

theorem headerRow_not_mem_rows (added removed : RouteMap) (ts : String) :
    headerRow ∉ added.map (addedRow ts) ++ removed.map (removedRow ts) := by
  intro hmem
  rcases List.mem_append.mp hmem with h | h
  · rcases List.mem_map.mp h with ⟨p, _, hp⟩
    exact headerRow_ne_addedRow ts p hp
  · rcases List.mem_map.mp h with ⟨p, _, hp⟩
    exact headerRow_ne_removedRow ts p hp

theorem appendBatch_of_nonEmpty (file : List CsvRow) (b : RouteMap × RouteMap × String)
    (h : (!file.isEmpty) = true) :
    appendBatch file b
      = file ++ (b.1.map (addedRow b.2.2) ++ b.2.1.map (removedRow b.2.2)) := by
  unfold appendBatch save_to_csv
  rw [if_pos h]
  simp

theorem runBatches_invariant :
    ∀ (bs : List (RouteMap × RouteMap × String)) (file : List CsvRow) (t : List CsvRow),
      file = headerRow :: t → headerRow ∉ t →
      ∃ t', bs.foldl appendBatch file = headerRow :: t' ∧ headerRow ∉ t' := by
  intro bs
  induction bs with
  | nil =>
    intro file t hf ht
    exact ⟨t, by simpa using hf, ht⟩
  | cons b bs ih =>
    intro file t hf ht
    have hne : (!file.isEmpty) = true := by rw [hf]; rfl
    rw [List.foldl_cons, appendBatch_of_nonEmpty file b hne, hf]
    apply ih _ (t ++ (b.1.map (addedRow b.2.2) ++ b.2.1.map (removedRow b.2.2)))
    · rfl
    · intro hmem
      rcases List.mem_append.mp hmem with h | h
      · exact ht h
      · exact headerRow_not_mem_rows b.1 b.2.1 b.2.2 h

/-- C8: one `save_to_csv` batch consumes exactly one clock reading, and after
the (possible) header its rows are exactly one `Added` row per entry of
`added` followed by one `Removed` row per entry of `removed`, every row built
by `addedRow`/`removedRow` — shape (ChangeType, destination, admin_distance,
metric, next_hop, timestamp) — from the single captured timestamp. -/
theorem claim_C8 (fileNonEmpty : Bool) (added removed : RouteMap)
    (clock : Nat → String) (now : Nat) :
    (save_to_csv fileNonEmpty added removed clock now).1.drop (if fileNonEmpty then 0 else 1)
        = added.map (addedRow (clock now)) ++ removed.map (removedRow (clock now)) ∧
      (save_to_csv fileNonEmpty added removed clock now).2 = now + 1 := by
  cases fileNonEmpty <;> simp [save_to_csv]

/-- C9: appending any non-empty sequence of change batches to an initially
absent/empty CSV file leaves exactly one header row, at the top. -/
theorem claim_C9 (bs : List (RouteMap × RouteMap × String)) (h : bs ≠ []) :
    (runBatches bs).head? = some headerRow ∧ (runBatches bs).tail.count headerRow = 0 := by
  cases bs with
  | nil => exact absurd rfl h
  | cons b bs =>
    have h0 : appendBatch [] b
        = headerRow :: (b.1.map (addedRow b.2.2) ++ b.2.1.map (removedRow b.2.2)) := by
      unfold appendBatch save_to_csv
      simp
    obtain ⟨t', h1, h2⟩ := runBatches_invariant bs (appendBatch [] b) _ h0
      (headerRow_not_mem_rows b.1 b.2.1 b.2.2)
    unfold runBatches
    rw [List.foldl_cons, h1]
    exact ⟨rfl, by simpa [List.count_eq_zero] using h2⟩

/-- Witness for C9 on two concrete batches. -/
theorem claim_C9_witness :
    ([([("192.168.2.0/24", (none, none, "192.168.1.1"))], [], "2024-01-01 00:00:00"),
        ([], [("10.0.0.0/8", (none, none, "direct"))], "2024-01-02 00:00:00")]
      : List (RouteMap × RouteMap × String)) ≠ [] ∧
    ((runBatches [([("192.168.2.0/24", (none, none, "192.168.1.1"))], [], "2024-01-01 00:00:00"),
        ([], [("10.0.0.0/8", (none, none, "direct"))], "2024-01-02 00:00:00")]).head?
        = some headerRow ∧
      (runBatches [([("192.168.2.0/24", (none, none, "192.168.1.1"))], [], "2024-01-01 00:00:00"),
        ([], [("10.0.0.0/8", (none, none, "direct"))],
          "2024-01-02 00:00:00")]).tail.count headerRow = 0) :=
  ⟨by decide, claim_C9 _ (by decide)⟩

/-- C6: in a monitor cycle whose diff against the baseline is empty in both
components, the baseline (routes and gateway), the log and the CSV file are
left exactly unchanged and the clock is not consumed. -/
theorem claim_C6 (prev : RouteMap × Option String) (output : List String)
    (logAcc : List String) (file : List CsvRow) (clock : Nat → String) (now : Nat)
    (h : compare_routes prev.1 (parse_routes output).1 = ([], [])) :
    monitorCycle prev output logAcc file clock now = (prev, logAcc, file, now) := by
  simp [monitorCycle, h]

/-- Witness for C6: polling an output identical to the baseline's changes
nothing. -/
theorem claim_C6_witness :
    compare_routes (parse_routes before_routes).1 (parse_routes before_routes).1 = ([], []) ∧
    monitorCycle (parse_routes before_routes) before_routes [] []
        (fun _ => "2024-01-01 00:00:00") 0
      = (parse_routes before_routes, [], [], 0) :=
  ⟨by decide, claim_C6 _ _ _ _ _ _ (by decide)⟩

/-- C7: evaluation of `get_current_routes` at the failure outcomes. No outcome
ever logs an error (the `except subprocess.CalledProcessError` handler is
unreachable because `subprocess.run` is called without `check=True`); a launch
failure propagates `FileNotFoundError` instead of being recovered; a spawned
process with non-zero exit status and empty stdout yields `[]` silently. -/
theorem claim_C7_eval :
    (∀ o : SpawnOutcome, (get_current_routes o).2 = []) ∧
    get_current_routes SpawnOutcome.notFound
      = (Except.error PyExn.fileNotFoundError, []) ∧
    get_current_routes (SpawnOutcome.spawned 2 "") = (Except.ok [], []) := by
  refine ⟨?_, rfl, rfl⟩
  intro o
  cases o <;> rfl
